import Mathlib

/-!
Verification of the sqlx offline-query-cache and recompile-planner core.

This file is a shallow embedding, in Lean 4, of the core logic of the
repository:

* `sqlx-macros/src/query/data/mod.rs` and `offline.rs`: the content-addressed
  query-metadata cache (descriptor construction, save path, validated load
  path with an in-process cache).
* `sqlx-cli/src/metadata.rs`: the package graph, its builder, and the
  transitive-dependents resolver `all_dependents_of`.
* `sqlx-cli/src/prepare.rs`: the minimal-recompile planner
  `minimal_project_recompile_action`.
* `sqlx-cli/src/lib.rs`: the connection-retry classification
  `retry_connect_errors`.

External collaborators are modelled at the level of their contracts:

* the `sha2`/`hex` crates are modelled by a full executable SHA-256 and
  lowercase hex encoder over `Nat` bytes (32-bit words are `Nat` reduced
  `% 2 ^ 32`);
* serde JSON (de)serialization of a descriptor is modelled field-for-field
  by `FileRecord`/`RawQueryData`, including the `serde(skip)` attribute on
  the `hash` field of `RawQueryData` (the field is not read back; it takes
  the `String` default, the empty string);
* the filesystem is a flat map from paths to optional file contents;
* the `backoff` crate's retry driver is modelled by an explicit loop with an
  abstract positive backoff-interval sequence and an elapsed-time budget;
* `cargo metadata` output is modelled as the already-parsed structure
  (`CargoMetadata`); the textual JSON parse itself is external serde code.
-/

namespace Sqlx

/-! ## SHA-256 (model of the external `sha2` crate) and hex encoding -/

/-- Truncate to a 32-bit word. -/
def w32 (x : Nat) : Nat := x % 4294967296

/-- Right rotation of a 32-bit word. -/
def rotr32 (n x : Nat) : Nat := x / 2 ^ n + x % 2 ^ n * 2 ^ (32 - n)

/-- Logical right shift. -/
def shr32 (n x : Nat) : Nat := x / 2 ^ n

/-- Bitwise complement within 32 bits. -/
def not32 (x : Nat) : Nat := x ^^^ 4294967295

def bigSigma0 (x : Nat) : Nat := rotr32 2 x ^^^ rotr32 13 x ^^^ rotr32 22 x

def bigSigma1 (x : Nat) : Nat := rotr32 6 x ^^^ rotr32 11 x ^^^ rotr32 25 x

def smallSigma0 (x : Nat) : Nat := rotr32 7 x ^^^ rotr32 18 x ^^^ shr32 3 x

def smallSigma1 (x : Nat) : Nat := rotr32 17 x ^^^ rotr32 19 x ^^^ shr32 10 x

def chooseFn (x y z : Nat) : Nat := x &&& y ^^^ (not32 x &&& z)

def majFn (x y z : Nat) : Nat := x &&& y ^^^ (x &&& z) ^^^ (y &&& z)

/-- The 64 SHA-256 round constants (FIPS 180-4, written in decimal). -/
def sha256K : List Nat :=
  [1116352408, 1899447441, 3049323471, 3921009573, 961987163, 1508970993,
   2453635748, 2870763221, 3624381080, 310598401, 607225278, 1426881987,
   1925078388, 2162078206, 2614888103, 3248222580, 3835390401, 4022224774,
   264347078, 604807628, 770255983, 1249150122, 1555081692, 1996064986,
   2554220882, 2821834349, 2952996808, 3210313671, 3336571891, 3584528711,
   113926993, 338241895, 666307205, 773529912, 1294757372, 1396182291,
   1695183700, 1986661051, 2177026350, 2456956037, 2730485921, 2820302411,
   3259730800, 3345764771, 3516065817, 3600352804, 4094571909, 275423344,
   430227734, 506948616, 659060556, 883997877, 958139571, 1322822218,
   1537002063, 1747873779, 1955562222, 2024104815, 2227730452, 2361852424,
   2428436474, 2756734187, 3204031479, 3329325298]

/-- Working state of SHA-256: eight 32-bit words. -/
structure Hash8 where
  h0 : Nat
  h1 : Nat
  h2 : Nat
  h3 : Nat
  h4 : Nat
  h5 : Nat
  h6 : Nat
  h7 : Nat
  deriving DecidableEq

/-- The SHA-256 initial hash value (FIPS 180-4, written in decimal). -/
def sha256H0 : Hash8 :=
  ⟨1779033703, 3144134277, 1013904242, 2773480762,
   1359893119, 2600822924, 528734635, 1541459225⟩

/-- One round of the SHA-256 compression function. -/
def sha256Round (s : Hash8) (kt wt : Nat) : Hash8 :=
  let t1 := w32 (s.h7 + bigSigma1 s.h4 + chooseFn s.h4 s.h5 s.h6 + kt + wt)
  let t2 := w32 (bigSigma0 s.h0 + majFn s.h0 s.h1 s.h2)
  { h0 := w32 (t1 + t2), h1 := s.h0, h2 := s.h1, h3 := s.h2,
    h4 := w32 (s.h3 + t1), h5 := s.h4, h6 := s.h5, h7 := s.h6 }

/-- Extend a 16-word block by `n` further message-schedule words. -/
def extendWords (ws : List Nat) : Nat → List Nat
  | 0 => ws
  | n + 1 =>
    let prev := extendWords ws n
    let len := prev.length
    prev ++ [w32 (smallSigma1 (prev.getD (len - 2) 0) + prev.getD (len - 7) 0 +
      smallSigma0 (prev.getD (len - 15) 0) + prev.getD (len - 16) 0)]

/-- The 64-word message schedule of one block. -/
def sha256Schedule (block : List Nat) : List Nat := extendWords block 48

/-- Compress one 16-word block into the running hash state. -/
def sha256Compress (s : Hash8) (block : List Nat) : Hash8 :=
  let t := (List.zip sha256K (sha256Schedule block)).foldl
    (fun st p => sha256Round st p.1 p.2) s
  { h0 := w32 (s.h0 + t.h0), h1 := w32 (s.h1 + t.h1), h2 := w32 (s.h2 + t.h2),
    h3 := w32 (s.h3 + t.h3), h4 := w32 (s.h4 + t.h4), h5 := w32 (s.h5 + t.h5),
    h6 := w32 (s.h6 + t.h6), h7 := w32 (s.h7 + t.h7) }

/-- Big-endian 8-byte encoding of a 64-bit length. -/
def be64 (n : Nat) : List Nat :=
  [n / 2 ^ 56 % 256, n / 2 ^ 48 % 256, n / 2 ^ 40 % 256, n / 2 ^ 32 % 256,
   n / 2 ^ 24 % 256, n / 2 ^ 16 % 256, n / 2 ^ 8 % 256, n % 256]

/-- SHA-256 padding: append `0x80`, zeros to 56 mod 64, then the bit length. -/
def padMessage (msg : List Nat) : List Nat :=
  let len := msg.length
  msg ++ [128] ++ List.replicate ((119 - len % 64) % 64) 0 ++ be64 (len * 8)

/-- Group bytes into big-endian 32-bit words. -/
def bytesToWords : List Nat → List Nat
  | b0 :: b1 :: b2 :: b3 :: rest =>
    (((b0 * 256 + b1) * 256 + b2) * 256 + b3) :: bytesToWords rest
  | _ => []

/-- Group words into 16-word blocks. -/
def wordsToBlocks : List Nat → List (List Nat)
  | w0 :: w1 :: w2 :: w3 :: w4 :: w5 :: w6 :: w7 ::
    w8 :: w9 :: w10 :: w11 :: w12 :: w13 :: w14 :: w15 :: rest =>
    [w0, w1, w2, w3, w4, w5, w6, w7, w8, w9, w10, w11, w12, w13, w14, w15] ::
      wordsToBlocks rest
  | _ => []

/-- Big-endian 4-byte encoding of a 32-bit word. -/
def wordToBytesBE (w : Nat) : List Nat :=
  [w / 2 ^ 24 % 256, w / 2 ^ 16 % 256, w / 2 ^ 8 % 256, w % 256]

/-- Serialize the final hash state to its 32-byte digest. -/
def hashToBytes (s : Hash8) : List Nat :=
  wordToBytesBE s.h0 ++ wordToBytesBE s.h1 ++ wordToBytesBE s.h2 ++
  wordToBytesBE s.h3 ++ wordToBytesBE s.h4 ++ wordToBytesBE s.h5 ++
  wordToBytesBE s.h6 ++ wordToBytesBE s.h7

/-- SHA-256 digest of a byte sequence. -/
def sha256 (msg : List Nat) : List Nat :=
  hashToBytes ((wordsToBlocks (bytesToWords (padMessage msg))).foldl
    sha256Compress sha256H0)

/-- UTF-8 encoding of one character. -/
def utf8EncodeChar (c : Char) : List Nat :=
  let n := c.toNat
  if n < 128 then [n]
  else if n < 2048 then [192 + n / 64, 128 + n % 64]
  else if n < 65536 then [224 + n / 4096, 128 + n / 64 % 64, 128 + n % 64]
  else [240 + n / 262144, 128 + n / 4096 % 64, 128 + n / 64 % 64, 128 + n % 64]

/-- UTF-8 encoding of a string (what `str::as_bytes` yields in Rust). -/
def utf8Bytes (s : String) : List Nat := (s.data.map utf8EncodeChar).flatten

/-- Lowercase hex digit. -/
def hexDigitChar (n : Nat) : Char :=
  if n < 10 then Char.ofNat (48 + n) else Char.ofNat (87 + n)

/-- Lowercase hex encoding of bytes, as the external `hex` crate produces. -/
def hexEncode (bs : List Nat) : String :=
  String.mk (bs.foldr (fun b acc => hexDigitChar (b / 16) :: hexDigitChar (b % 16) :: acc) [])

/-- `hash_string` from `sqlx-macros/src/query/data/offline.rs`: the
hex-encoded SHA-256 digest of a query string. -/
def hash_string (query : String) : String := hexEncode (sha256 (utf8Bytes query))

/-! ## The offline query-metadata cache
(`sqlx-macros/src/query/data/mod.rs` and `offline.rs`)

The build is modelled with all four database features enabled, so the
closed set of database kinds is exactly the four backends of the source.
The `NAME` constants come from the corresponding `Database` impls in
`sqlx-core` (`"PostgreSQL"`, `"MySQL"`, `"SQLite"`, `"MSSQL"`). -/

/-- The database kinds this build is compiled to support. -/
inductive DbKind
  | postgres
  | mysql
  | sqlite
  | mssql
  deriving DecidableEq

/-- `<DB as DatabaseExt>::NAME` for each supported kind. -/
def DbKind.name : DbKind → String
  | .postgres => "PostgreSQL"
  | .mysql => "MySQL"
  | .sqlite => "SQLite"
  | .mssql => "MSSQL"

/-- The db-name dispatch of the `to_dyn_data!` invocation in
`load_query_from_data_file`: match the stored `db_name` string against the
`NAME` constants of the enabled databases, in source order; any other
string is an unknown database kind. -/
def dbKindOfName (s : String) : Option DbKind :=
  if s = "PostgreSQL" then some .postgres
  else if s = "MySQL" then some .mysql
  else if s = "SQLite" then some .sqlite
  else if s = "MSSQL" then some .mssql
  else none

/-- `QueryData<DB>` from `sqlx-macros/src/query/data/mod.rs`, with the
phantom `db_name: SerializeDbName<DB>` tag made explicit as `dbKind`.
The `Describe<DB>` payload is opaque to this core; it is carried as its
raw JSON text (`describe`), matching how `RawQueryData` stores it. -/
structure QueryData where
  dbKind : DbKind
  query : String
  hash : String
  describe : String
  deriving DecidableEq

/-- `QueryData::from_describe`: the only constructor of descriptors; it
computes `hash := hash_string query`. -/
def QueryData.from_describe (k : DbKind) (query describe : String) : QueryData :=
  { dbKind := k, query := query, hash := hash_string query, describe := describe }

/-- The field content of a `query-<hash>.json` file as written by
`serde_json::to_writer_pretty` on a `QueryData<DB>`: all four fields are
serialized (`query`, `describe`, `hash`, and `db_name` = `DB::NAME`). -/
structure FileRecord where
  db_name : String
  query : String
  hash : String
  describe : String
  deriving DecidableEq

/-- Contents of a file: either a well-formed serialized descriptor or
bytes that do not parse as one. -/
inductive FileContent
  | valid (r : FileRecord)
  | malformed
  deriving DecidableEq

/-- The filesystem, as a flat map from paths to optional contents
(`none` = the path cannot be read). -/
abbrev Fs : Type := String → Option FileContent

/-- Write a file (creation or overwrite). -/
def setFile (fs : Fs) (p : String) (c : FileContent) : Fs :=
  fun q => if q = p then some c else fs q

/-- Remove a file. -/
def removeFile (fs : Fs) (p : String) : Fs :=
  fun q => if q = p then none else fs q

/-- Serialization of a descriptor (model of the serde `Serialize` derive on
`QueryData<DB>`; `db_name` serializes as `DB::NAME`). -/
def serializeQueryData (d : QueryData) : FileContent :=
  .valid { db_name := d.dbKind.name, query := d.query, hash := d.hash,
           describe := d.describe }

/-- `RawQueryData` from `offline.rs`: the deserialization target. Its
`hash` field carries `#[serde(skip)]`, so it is NOT read from the file and
takes the `String` default, the empty string. -/
structure RawQueryData where
  db_name : String
  query : String
  hash : String
  describe : String
  deriving DecidableEq

/-- Model of `serde_json::from_str::<RawQueryData>` on file contents:
fails on malformed contents; on well-formed contents it reads `db_name`,
`query` and `describe` and skips `hash` (default `""`). -/
def parseRawQueryData : FileContent → Option RawQueryData
  | .valid r => some { db_name := r.db_name, query := r.query, hash := "",
                       describe := r.describe }
  | .malformed => none

/-- `QueryData::save_in` from `offline.rs`, at the filesystem level: write
the descriptor to a temporary path inside `<target_dir>/sqlx` named by the
hash of the call-site span representation, then atomically rename it to
`<dir>/query-<self.hash>.json`. Returns the updated filesystem and the
final path. (Directory creation and I/O failures of the external
filesystem are outside this model; the success path is modelled.) -/
def save_in (fs : Fs) (d : QueryData) (dir : String) (target_dir : String)
    (input_span_repr : String) : Fs × String :=
  let tmp_dir := target_dir ++ "/sqlx"
  let tmp_path := tmp_dir ++ "/query-" ++ hash_string input_span_repr ++ ".json"
  let fs1 := setFile fs tmp_path (serializeQueryData d)
  let final_path := dir ++ "/query-" ++ d.hash ++ ".json"
  let fs2 := setFile (removeFile fs1 tmp_path) final_path (serializeQueryData d)
  (fs2, final_path)

/-- The distinct failure classes of `load_query_from_data_file`, one per
`Err(...)` site in the source (the source produces boxed string errors;
the constructor names follow the specification's taxonomy):
`collision` = "hash collision for saved query data" (both the cache-hit
check and the on-disk check), `ioError` = "failed to read path",
`parseError` = a serde parse failure, `unknownDatabaseKind` = "query data
from filesystem used unknown database". -/
inductive LoadError
  | collision
  | ioError
  | parseError
  | unknownDatabaseKind (dbName : String)
  deriving DecidableEq

/-- The in-process descriptor cache `OFFLINE_DATA_CACHE`: a map from path
to the shared descriptor handle, here an association list. -/
abbrev Cache : Type := List (String × QueryData)

/-- `load_query_from_data_file` from `offline.rs`. Checks the in-process
cache first (verifying the expected query text even on a hit); on a miss,
reads and parses the file, validates the query text, dispatches on the
`db_name` tag, and only then inserts into the cache. Returns the result
together with the cache state after the call. The `Describe<DB>` payload
parse (external serde on an opaque payload written by the save path) is
modelled as the identity. -/
def load_query_from_data_file (fs : Fs) (cache : Cache) (path : String)
    (query : String) : Except LoadError QueryData × Cache :=
  match List.lookup path cache with
  | some cached =>
    if query ≠ cached.query then (.error .collision, cache)
    else (.ok cached, cache)
  | none =>
    match fs path with
    | none => (.error .ioError, cache)
    | some contents =>
      match parseRawQueryData contents with
      | none => (.error .parseError, cache)
      | some offline_data =>
        if query ≠ offline_data.query then (.error .collision, cache)
        else
          match dbKindOfName offline_data.db_name with
          | none => (.error (.unknownDatabaseKind offline_data.db_name), cache)
          | some k =>
            let dyn_data : QueryData :=
              { dbKind := k, query := offline_data.query,
                hash := offline_data.hash, describe := offline_data.describe }
            (.ok dyn_data, cache ++ [(path, dyn_data)])

/-- Outcome of the `DynQueryData::to_postgres`-style downcasts: on a
kind mismatch the source calls the `panic!` macro, which aborts. -/
inductive ConvertOutcome
  | ok (d : QueryData)
  | aborted (msg : String)
  deriving DecidableEq

/-- The `to_<db>` downcast of `DynQueryData` for a target kind: the
default trait method aborts with "saved query data was not for ..." and
the per-database impl overrides it with the identity for its own kind. -/
def toDbKind (target : DbKind) (d : QueryData) : ConvertOutcome :=
  if d.dbKind = target then .ok d
  else .aborted ("saved query data was not for " ++ target.name ++
    ", it was for " ++ d.dbKind.name)

/-! ## The package graph and dependents resolver (`sqlx-cli/src/metadata.rs`)

Package identities (`cargo_metadata::PackageId`) are opaque comparable
strings. `BTreeMap`/`BTreeSet` are modelled as association lists / lists
with set semantics (unique keys, deduplicated members); the claims in this
file are about membership, never about iteration order. -/

/-- `Package` from `metadata.rs`: name and per-target source paths. -/
structure Package where
  name : String
  src_paths : List String
  deriving DecidableEq

/-- `Metadata` from `metadata.rs`. -/
structure Metadata where
  packages : List (String × Package)
  workspace_members : List String
  workspace_root : String
  reverse_deps : List (String × List String)
  target_directory : String
  deriving DecidableEq

/-- `self.reverse_deps.get(id)` with a missing key treated as the empty
set (the source then simply does not iterate). -/
def rdOf (m : Metadata) (id : String) : List String :=
  match List.lookup id m.reverse_deps with
  | some deps => deps
  | none => []

/-- `Metadata::all_dependents_of_helper`: depth-first traversal of
`reverse_deps` with a visited set, recursing only into newly inserted
dependents. The source recursion terminates because the visited set grows
at each recursive call; here that argument appears as a fuel parameter
decreasing with recursion depth, with enough initial fuel that it is never
exhausted. -/
def adoAux (m : Metadata) : Nat → String → List String → List String
  | 0, _, dependents => dependents
  | fuel + 1, id, dependents =>
    (rdOf m id).foldl
      (fun vis d => if d ∈ vis then vis else adoAux m fuel d (vis ++ [d]))
      dependents

/-- All identities that can ever be inserted by the traversal: the members
of the `reverse_deps` entries. -/
def rdUniverse (m : Metadata) : List String :=
  (m.reverse_deps.map Prod.snd).flatten

/-- `Metadata::all_dependents_of`: all direct and transitive dependents
of `id`. -/
def all_dependents_of (m : Metadata) (id : String) : List String :=
  adoAux m ((rdUniverse m).length + 1) id []

/-- `id` can reach `x` by following one or more reverse-dependency edges
(an edge from `a` to each member of `rdOf m a`). -/
inductive Reaches (m : Metadata) : String → String → Prop
  | single : ∀ {a b : String}, b ∈ rdOf m a → Reaches m a b
  | tail : ∀ {a b c : String}, Reaches m a b → c ∈ rdOf m b → Reaches m a c

/-! ## The builder (`Metadata::from_str`)

The serde parse of the `cargo metadata` JSON text is external; the model
starts from the parsed document, which is what the repository's own code
consumes. -/

/-- One build target of a package, as emitted by `cargo metadata`. -/
structure MetadataTarget where
  src_path : String
  deriving DecidableEq

/-- One package entry of the `cargo metadata` document. -/
structure MetadataPackage where
  id : String
  name : String
  targets : List MetadataTarget
  deriving DecidableEq

/-- One node of the `resolve` section: a package and the packages it
depends on (`dep.pkg`). -/
structure ResolveNode where
  id : String
  deps : List String
  deriving DecidableEq

/-- The `resolve` section of the `cargo metadata` document. -/
structure MetadataResolve where
  nodes : List ResolveNode
  deriving DecidableEq

/-- The parsed `cargo metadata` document (the fields `Metadata::from_str`
destructures). -/
structure CargoMetadata where
  packages : List MetadataPackage
  workspace_members : List String
  workspace_root : String
  resolve : Option MetadataResolve
  target_directory : String
  deriving DecidableEq

/-- `impl From<&MetadataPackage> for Package`. -/
def Package.ofMetadataPackage (p : MetadataPackage) : Package :=
  { name := p.name, src_paths := p.targets.map MetadataTarget.src_path }

/-- `BTreeMap::insert` on an association list of packages (overwrite on an
existing key, append otherwise). -/
def insertPkg (ps : List (String × Package)) (id : String) (p : Package) :
    List (String × Package) :=
  match ps with
  | [] => [(id, p)]
  | (k, v) :: rest =>
    if k = id then (k, p) :: rest else (k, v) :: insertPkg rest id p

/-- `reverse_deps.entry(dependency).or_default().insert(dependent)`:
insert the reversed edge, deduplicating members as a `BTreeSet` does. -/
def insertRD (rd : List (String × List String)) (dependency dependent : String) :
    List (String × List String) :=
  match rd with
  | [] => [(dependency, [dependent])]
  | (k, vs) :: rest =>
    if k = dependency then
      (k, if dependent ∈ vs then vs else vs ++ [dependent]) :: rest
    else (k, vs) :: insertRD rest dependency dependent

/-- `Metadata::from_str`, from the parsed document onward: index the
packages by identity, fail if the `resolve` section is absent, and insert
the reverse of every forward dependency edge. No validation relates the
`resolve` identities to the package index. -/
def Metadata.from_cargo_metadata (c : CargoMetadata) : Except String Metadata :=
  match c.resolve with
  | none => .error "Resolving the dependency graph failed (old version of cargo)"
  | some resolve =>
    let packages := c.packages.foldl
      (fun acc p => insertPkg acc p.id (Package.ofMetadataPackage p)) []
    let reverse_deps := resolve.nodes.foldl
      (fun rd node => node.deps.foldl
        (fun rd dep => insertRD rd dep node.id) rd) []
    .ok { packages := packages, workspace_members := c.workspace_members,
          workspace_root := c.workspace_root, reverse_deps := reverse_deps,
          target_directory := c.target_directory }

/-! ## The minimal-recompile planner (`sqlx-cli/src/prepare.rs`) -/

/-- `ProjectRecompileAction`: package names to `cargo clean -p` and source
paths to touch. -/
structure ProjectRecompileAction where
  clean_packages : List String
  touch_paths : List String
  deriving DecidableEq

/-- The identities whose package name equals `"sqlx-macros"` (matching by
name, not identity, as the source comments: the package may be vendored). -/
def markerMatchedIds (m : Metadata) : List String :=
  (m.packages.filter (fun e => e.2.name = "sqlx-macros")).map Prod.fst

/-- Set union on lists (model of `BTreeSet::extend`). -/
def listUnion (a b : List String) : List String :=
  a ++ b.filter (fun x => decide (x ∉ a))

/-- The union of `all_dependents_of` over every matched identity
(`sqlx_macros_dependents` in the source). -/
def markerDependents (m : Metadata) : List String :=
  (markerMatchedIds m).foldl (fun acc id => listUnion acc (all_dependents_of m id)) []

/-- The dependents inside the workspace (`workspace_members.contains`). -/
def inWorkspaceDependents (m : Metadata) : List String :=
  (markerDependents m).filter (fun id => decide (id ∈ m.workspace_members))

/-- The dependents outside the workspace. -/
def outOfWorkspaceDependents (m : Metadata) : List String :=
  (markerDependents m).filter (fun id => decide (id ∉ m.workspace_members))

/-- `minimal_project_recompile_action`: in-workspace dependents contribute
their packages' source paths (to touch), out-of-workspace dependents
contribute their package names (to clean); identities without a package
entry are skipped by `filter_map`. The source's `anyhow::Result` return
has no failing path. -/
def minimal_project_recompile_action (m : Metadata) :
    Except String ProjectRecompileAction :=
  let files_to_touch :=
    ((inWorkspaceDependents m).filterMap
      (fun id => (List.lookup id m.packages).map Package.src_paths)).flatten
  let packages_to_clean :=
    (outOfWorkspaceDependents m).filterMap
      (fun id => (List.lookup id m.packages).map Package.name)
  .ok { clean_packages := packages_to_clean, touch_paths := files_to_touch }

/-! ## Connection retry (`sqlx-cli/src/lib.rs`) -/

/-- The `std::io::ErrorKind` values the classification distinguishes; all
other kinds behave identically and are collapsed into `otherKind`. -/
inductive IoErrorKind
  | connectionRefused
  | connectionReset
  | connectionAborted
  | otherKind
  deriving DecidableEq

/-- `sqlx::Error`: an I/O error with its kind, or any of the non-I/O
variants (all treated identically by the classification). -/
inductive SqlxError
  | io (kind : IoErrorKind)
  | otherError (msg : String)
  deriving DecidableEq

/-- Transient-versus-permanent classification. -/
inductive BackoffClass
  | transient
  | permanent
  deriving DecidableEq

/-- The failure classification inside `retry_connect_errors`: an I/O error
of kind connection-refused, connection-reset or connection-aborted is
transient; everything else is permanent. -/
def classifyConnectError (e : SqlxError) : BackoffClass :=
  match e with
  | .io kind =>
    match kind with
    | .connectionRefused | .connectionReset | .connectionAborted => .transient
    | _ => .permanent
  | _ => .permanent

/-- Model of the external `backoff` crate's retry driver with a maximum
elapsed time: run the attempt; return success immediately; return a
permanent error immediately; on a transient error, if waiting the next
backoff interval would exceed the elapsed-time budget, surface that
transient error, otherwise sleep the interval and retry. `interval n` is
the backoff interval before retry `n + 1` (the crate computes these
exponentially with jitter; the claims hold for every positive interval
sequence). Returns the result and the index of the deciding attempt (its
number of preceding retries). -/
def retryLoop {α : Type} (f : Nat → Except SqlxError α) (interval : Nat → Nat)
    (maxElapsed : Nat) : Nat → Nat → Nat → Except SqlxError α × Nat
  | fuel, attempt, elapsed =>
    match f attempt with
    | .ok a => (.ok a, attempt)
    | .error e =>
      match classifyConnectError e with
      | .permanent => (.error e, attempt)
      | .transient =>
        match fuel with
        | 0 => (.error e, attempt)
        | fuel' + 1 =>
          let d := interval attempt
          if maxElapsed < elapsed + d then (.error e, attempt)
          else retryLoop f interval maxElapsed fuel' (attempt + 1) (elapsed + d)

/-- `retry_connect_errors`: drive the attempt function under the
elapsed-time budget `maxElapsed`, starting at attempt 0 with no time
spent. The fuel `maxElapsed + 1` is enough for any positive interval
sequence, since every retry consumes at least one time unit. -/
def retry_connect_errors {α : Type} (f : Nat → Except SqlxError α)
    (interval : Nat → Nat) (maxElapsed : Nat) : Except SqlxError α × Nat :=
  retryLoop f interval maxElapsed (maxElapsed + 1) 0 0

/-- Total backoff delay of the first `n` retries starting at attempt `a`. -/
def sumOver (interval : Nat → Nat) : Nat → Nat → Nat
  | _, 0 => 0
  | a, n + 1 => interval a + sumOver interval (a + 1) n

/-! ## Concrete fixtures used by witnesses and counterexamples -/

/-- A reverse-dependency two-cycle `a → b → a` with no self-edge. -/
def fixtureCycle : Metadata :=
  { packages := [], workspace_members := [], workspace_root := "",
    reverse_deps := [("a", ["b"]), ("b", ["a"])], target_directory := "" }

/-- A single reverse-dependency edge `x → y`. -/
def fixtureEdge : Metadata :=
  { packages := [], workspace_members := [], workspace_root := "",
    reverse_deps := [("x", ["y"])], target_directory := "" }

/-- A marker package `m` with an in-workspace dependent `b` and an
out-of-workspace dependent `s`. -/
def fixtureMarker : Metadata :=
  { packages := [("m", { name := "sqlx-macros", src_paths := ["m.rs"] }),
                 ("b", { name := "b_lib", src_paths := ["b.rs"] }),
                 ("s", { name := "sqlx", src_paths := ["s.rs"] })],
    workspace_members := ["b"], workspace_root := "/w",
    reverse_deps := [("m", ["s", "b"])], target_directory := "/w/t" }

/-- A graph with no package named like the marker package. -/
def fixtureNoMarker : Metadata :=
  { packages := [("f", { name := "foo", src_paths := ["f.rs"] })],
    workspace_members := ["f"], workspace_root := "/w",
    reverse_deps := [("f", ["g"])], target_directory := "/w/t" }

/-- A marker graph whose only dependent has no package entry. -/
def fixtureGhost : Metadata :=
  { packages := [("m", { name := "sqlx-macros", src_paths := ["m.rs"] })],
    workspace_members := [], workspace_root := "/w",
    reverse_deps := [("m", ["ghost"])], target_directory := "/w/t" }

/-- Parsed metadata whose `resolve` section names identities (`b`, `c`)
absent from the package list. -/
def fixtureBadCargo : CargoMetadata :=
  { packages := [{ id := "a", name := "pkg-a", targets := [{ src_path := "src/lib.rs" }] }],
    workspace_members := ["a"], workspace_root := "/w",
    resolve := some { nodes := [{ id := "b", deps := ["c"] }] },
    target_directory := "/w/target" }

/-- The graph the builder produces from `fixtureBadCargo`. -/
def fixtureBadGraph : Metadata :=
  { packages := [("a", { name := "pkg-a", src_paths := ["src/lib.rs"] })],
    workspace_members := ["a"], workspace_root := "/w",
    reverse_deps := [("c", ["b"])], target_directory := "/w/target" }

/-! ## The dependents traversal computes reachability

`adoAux (fuel + 1) id vis` runs the source's for-loop over `rdOf m id`;
the loop body is `adoStep m fuel`. -/

/-- One iteration of the traversal loop: skip an already-visited
dependent, otherwise insert it and recurse into it. -/
def adoStep (m : Metadata) (fuel : Nat) : List String → String → List String :=
  fun vis d => if d ∈ vis then vis else adoAux m fuel d (vis ++ [d])

theorem adoAux_succ (m : Metadata) (fuel : Nat) (id : String) (vis : List String) :
    adoAux m (fuel + 1) id vis = (rdOf m id).foldl (adoStep m fuel) vis := rfl

/-- Appending an edge on the left of a reachability path. -/
theorem reaches_head (m : Metadata) {a b c : String} (hab : b ∈ rdOf m a)
    (hbc : Reaches m b c) : Reaches m a c := by
  induction hbc with
  | single h => exact .tail (.single hab) h
  | tail _ h ihh => exact .tail ihh h

/-- Any fold whose step only ever grows the accumulator preserves
membership. -/
theorem foldl_grow_subset {α β : Type} (f : List α → β → List α)
    (hf : ∀ vis d, vis ⊆ f vis d) :
    ∀ (ds : List β) (vis : List α), vis ⊆ ds.foldl f vis := by
  intro ds
  induction ds with
  | nil => intro vis x hx; exact hx
  | cons d ds ih => intro vis x hx; exact ih (f vis d) (hf vis d hx)

/-- The traversal only grows the visited set. -/
theorem adoAux_subset (m : Metadata) :
    ∀ (fuel : Nat) (id : String) (vis : List String), vis ⊆ adoAux m fuel id vis := by
  intro fuel
  induction fuel with
  | zero => intro id vis x hx; exact hx
  | succ fuel ih =>
    intro id vis
    rw [adoAux_succ]
    refine foldl_grow_subset (adoStep m fuel) ?_ (rdOf m id) vis
    intro vis d
    unfold adoStep
    by_cases hd : d ∈ vis
    · simp [hd]
    · simp only [hd, if_false]
      exact fun x hx => ih d (vis ++ [d]) (List.mem_append_left [d] hx)

theorem adoStep_subset (m : Metadata) (fuel : Nat) :
    ∀ (vis : List String) (d : String), vis ⊆ adoStep m fuel vis d := by
  intro vis d
  unfold adoStep
  by_cases hd : d ∈ vis
  · simp [hd]
  · simp only [hd, if_false]
    exact fun x hx => adoAux_subset m fuel d (vis ++ [d]) (List.mem_append_left [d] hx)

/-- Soundness of the loop: everything in the fold's result was already
visited or is reachable from the node whose dependents are being
iterated. -/
theorem adoAux_sound_fold (m : Metadata) (fuel : Nat) (id : String)
    (ih : ∀ (id : String) (vis : List String) (x : String),
      x ∈ adoAux m fuel id vis → x ∈ vis ∨ Reaches m id x) :
    ∀ (ds : List String) (vis : List String) (x : String),
      (∀ d ∈ ds, d ∈ rdOf m id) →
      x ∈ ds.foldl (adoStep m fuel) vis → x ∈ vis ∨ Reaches m id x := by
  intro ds
  induction ds with
  | nil => intro vis x _ hx; exact Or.inl hx
  | cons d ds ihds =>
    intro vis x hds hx
    rw [List.foldl_cons] at hx
    rcases ihds (adoStep m fuel vis d) x (fun d2 h2 => hds d2 (List.mem_cons_of_mem d h2)) hx with h1 | h2
    · unfold adoStep at h1
      by_cases hd : d ∈ vis
      · rw [if_pos hd] at h1; exact Or.inl h1
      · rw [if_neg hd] at h1
        rcases ih d (vis ++ [d]) x h1 with h3 | h3
        · rcases List.mem_append.mp h3 with h4 | h4
          · exact Or.inl h4
          · have hxd : x = d := List.mem_singleton.mp h4
            exact Or.inr (hxd ▸ Reaches.single (hds d (List.mem_cons_self d ds)))
        · exact Or.inr (reaches_head m (hds d (List.mem_cons_self d ds)) h3)
    · exact Or.inr h2

/-- Soundness of the traversal: every result member was already visited
or is reachable from the start node. -/
theorem adoAux_sound (m : Metadata) :
    ∀ (fuel : Nat) (id : String) (vis : List String) (x : String),
      x ∈ adoAux m fuel id vis → x ∈ vis ∨ Reaches m id x := by
  intro fuel
  induction fuel with
  | zero => intro id vis x hx; exact Or.inl hx
  | succ fuel ih =>
    intro id vis x hx
    rw [adoAux_succ] at hx
    exact adoAux_sound_fold m fuel id ih (rdOf m id) vis x (fun _ h => h) hx

/-- A successful association-list lookup exhibits a member. -/
theorem lookup_mem {β : Type} (a : String) (b : β) :
    ∀ l : List (String × β), List.lookup a l = some b → (a, b) ∈ l := by
  intro l
  induction l with
  | nil => intro h; cases h
  | cons e rest ih =>
    obtain ⟨k, v⟩ := e
    intro h
    rw [List.lookup_cons] at h
    cases hk : a == k with
    | false =>
      rw [hk] at h
      exact List.mem_cons_of_mem _ (ih h)
    | true =>
      rw [hk] at h
      have hab : a = k := by simpa using hk
      have hvb : v = b := by simpa using h
      subst hab
      subst hvb
      exact List.mem_cons_self _ _

/-- Every dependent list in `reverse_deps` is contained in `rdUniverse`. -/
theorem rdOf_subset_universe (m : Metadata) (id : String) :
    ∀ y ∈ rdOf m id, y ∈ rdUniverse m := by
  intro y hy
  unfold rdOf at hy
  cases hl : List.lookup id m.reverse_deps with
  | none => rw [hl] at hy; cases hy
  | some deps =>
    rw [hl] at hy
    have hmem : (id, deps) ∈ m.reverse_deps := lookup_mem id deps m.reverse_deps hl
    unfold rdUniverse
    rw [List.mem_flatten]
    exact ⟨deps, List.mem_map.mpr ⟨(id, deps), hmem, rfl⟩, hy⟩

/-- How many identities the traversal could still insert: the members of
`rdUniverse` not yet visited. -/
def freshCount (m : Metadata) (vis : List String) : Nat :=
  ((rdUniverse m).toFinset.filter (fun x => x ∉ vis)).card

theorem freshCount_le_of_subset (m : Metadata) {vis vis' : List String}
    (h : vis ⊆ vis') : freshCount m vis' ≤ freshCount m vis := by
  apply Finset.card_le_card
  intro x hx
  rw [Finset.mem_filter] at hx ⊢
  exact ⟨hx.1, fun hmem => hx.2 (h hmem)⟩

theorem freshCount_append_lt (m : Metadata) {vis : List String} {d : String}
    (hdU : d ∈ rdUniverse m) (hd : d ∉ vis) :
    freshCount m (vis ++ [d]) < freshCount m vis := by
  apply Finset.card_lt_card
  rw [Finset.ssubset_iff_of_subset]
  · exact ⟨d, Finset.mem_filter.mpr ⟨List.mem_toFinset.mpr hdU, hd⟩,
      fun hc => (Finset.mem_filter.mp hc).2 (List.mem_append_right vis (List.mem_singleton.mpr rfl))⟩
  · intro x hx
    rw [Finset.mem_filter] at hx ⊢
    exact ⟨hx.1, fun hmem => hx.2 (List.mem_append_left [d] hmem)⟩

/-- Completeness invariant of the loop: with enough fuel, every iterated
dependent ends up in the result, and every newly inserted identity has its
own dependents in the result as well. -/
theorem adoAux_closure_fold (m : Metadata) (fuel : Nat)
    (ih : ∀ (id : String) (vis : List String), freshCount m vis < fuel →
      (∀ y ∈ rdOf m id, y ∈ adoAux m fuel id vis) ∧
      (∀ x ∈ adoAux m fuel id vis, x ∉ vis →
        ∀ y ∈ rdOf m x, y ∈ adoAux m fuel id vis)) :
    ∀ (ds : List String) (vis : List String),
      (∀ d ∈ ds, d ∈ rdUniverse m) → freshCount m vis ≤ fuel →
      (∀ d ∈ ds, d ∈ ds.foldl (adoStep m fuel) vis) ∧
      (∀ x ∈ ds.foldl (adoStep m fuel) vis, x ∉ vis →
        ∀ y ∈ rdOf m x, y ∈ ds.foldl (adoStep m fuel) vis) := by
  intro ds
  induction ds with
  | nil =>
    intro vis _ _
    exact ⟨fun d hd => absurd hd (List.not_mem_nil d),
           fun x hx hnx => absurd hx hnx⟩
  | cons d ds ihds =>
    intro vis hds hcount
    rw [List.foldl_cons]
    by_cases hd : d ∈ vis
    · have hstep : adoStep m fuel vis d = vis := if_pos hd
      rw [hstep]
      obtain ⟨A, B⟩ := ihds vis (fun d2 h2 => hds d2 (List.mem_cons_of_mem d h2)) hcount
      refine ⟨?_, B⟩
      intro d2 hd2
      rcases List.mem_cons.mp hd2 with h | h
      · exact h ▸ foldl_grow_subset (adoStep m fuel) (adoStep_subset m fuel) ds vis hd
      · exact A d2 h
    · have hstep : adoStep m fuel vis d = adoAux m fuel d (vis ++ [d]) := if_neg hd
      rw [hstep]
      have hdU : d ∈ rdUniverse m := hds d (List.mem_cons_self d ds)
      have hlt : freshCount m (vis ++ [d]) < fuel :=
        Nat.lt_of_lt_of_le (freshCount_append_lt m hdU hd) hcount
      obtain ⟨H1, H2⟩ := ih d (vis ++ [d]) hlt
      have hsub1 : vis ++ [d] ⊆ adoAux m fuel d (vis ++ [d]) :=
        adoAux_subset m fuel d (vis ++ [d])
      have hcount2 : freshCount m (adoAux m fuel d (vis ++ [d])) ≤ fuel :=
        le_of_lt (Nat.lt_of_le_of_lt
          (freshCount_le_of_subset m hsub1) hlt)
      obtain ⟨A, B⟩ := ihds (adoAux m fuel d (vis ++ [d]))
        (fun d2 h2 => hds d2 (List.mem_cons_of_mem d h2)) hcount2
      have hsub2 : adoAux m fuel d (vis ++ [d]) ⊆
          ds.foldl (adoStep m fuel) (adoAux m fuel d (vis ++ [d])) :=
        foldl_grow_subset (adoStep m fuel) (adoStep_subset m fuel) ds _
      constructor
      · intro d2 hd2
        rcases List.mem_cons.mp hd2 with h | h
        · exact h ▸ hsub2 (hsub1 (List.mem_append_right vis (List.mem_singleton.mpr rfl)))
        · exact A d2 h
      · intro x hx hnx y hy
        by_cases hx2 : x ∈ adoAux m fuel d (vis ++ [d])
        · by_cases hxd : x = d
          · exact hsub2 (H1 y (hxd ▸ hy))
          · have hnx2 : x ∉ vis ++ [d] := by
              intro hc
              rcases List.mem_append.mp hc with h | h
              · exact hnx h
              · exact hxd (List.mem_singleton.mp h)
            exact hsub2 (H2 x hx2 hnx2 y hy)
        · exact B x hx hx2 y hy

/-- Completeness core: with enough fuel the traversal result contains the
direct dependents of the start node and is closed under taking dependents
of any member it added. -/
theorem adoAux_closure (m : Metadata) :
    ∀ (fuel : Nat) (id : String) (vis : List String), freshCount m vis < fuel →
      (∀ y ∈ rdOf m id, y ∈ adoAux m fuel id vis) ∧
      (∀ x ∈ adoAux m fuel id vis, x ∉ vis →
        ∀ y ∈ rdOf m x, y ∈ adoAux m fuel id vis) := by
  intro fuel
  induction fuel with
  | zero => intro id vis h; cases Nat.not_lt_zero _ h
  | succ fuel ih =>
    intro id vis hcount
    rw [adoAux_succ]
    exact adoAux_closure_fold m fuel ih (rdOf m id) vis
      (rdOf_subset_universe m id) (Nat.lt_succ_iff.mp hcount)

theorem freshCount_nil_lt (m : Metadata) :
    freshCount m [] < (rdUniverse m).length + 1 := by
  apply Nat.lt_succ_of_le
  calc ((rdUniverse m).toFinset.filter (fun x => x ∉ ([] : List String))).card
      ≤ (rdUniverse m).toFinset.card := Finset.card_filter_le _ _
    _ ≤ (rdUniverse m).length := (rdUniverse m).toFinset_card_le

/-- Every identity reachable from `id` is found by `all_dependents_of`. -/
theorem reaches_mem_all_dependents (m : Metadata) (id x : String)
    (h : Reaches m id x) : x ∈ all_dependents_of m id := by
  obtain ⟨H1, H2⟩ := adoAux_closure m ((rdUniverse m).length + 1) id []
    (freshCount_nil_lt m)
  induction h with
  | single hb => exact H1 _ hb
  | tail _ hbc ihr => exact H2 _ ihr (List.not_mem_nil _) _ hbc

/-- C2 (amended): `all_dependents_of m id` contains exactly the
identities reachable from `id` by following one or more
reverse-dependency edges. In particular `id` itself is in the result
exactly when `id` is reachable from itself — through a self-dependency
edge or through any longer dependency cycle — not only through a literal
self-edge. -/
theorem c2_all_dependents_iff_reachable (m : Metadata) (id x : String) :
    x ∈ all_dependents_of m id ↔ Reaches m id x := by
  constructor
  · intro hx
    rcases adoAux_sound m ((rdUniverse m).length + 1) id [] x hx with h | h
    · cases h
    · exact h
  · exact reaches_mem_all_dependents m id x

/-- C2 (counterexample to the claim as stated): in the two-node cycle
`a → b → a` (reverse-dependency edges), `all_dependents_of` at `a`
contains `a` itself, although no self-dependency edge `a ∈ rdOf a` exists
in the input. -/
theorem c2_self_exclusion_counterexample :
    (("a" : String) ∈ all_dependents_of fixtureCycle ("a"))
    ∧ (("a" : String) ∉ rdOf fixtureCycle ("a")) := by
  decide

/-- C2 witness: the characterization at a concrete graph and pair of
identities. -/
theorem c2_all_dependents_iff_reachable_witness :
    ("y" : String) ∈ all_dependents_of fixtureEdge ("x")
    ↔ Reaches fixtureEdge ("x") ("y") :=
  c2_all_dependents_iff_reachable fixtureEdge ("x") ("y")

/-! ## The planner's partition and coverage -/

theorem listUnion_mem (a b : List String) (x : String) :
    x ∈ listUnion a b ↔ x ∈ a ∨ x ∈ b := by
  unfold listUnion
  rw [List.mem_append, List.mem_filter]
  constructor
  · rintro (h | ⟨h, _⟩)
    · exact Or.inl h
    · exact Or.inr h
  · intro h
    by_cases ha : x ∈ a
    · exact Or.inl ha
    · rcases h with h | h
      · exact absurd h ha
      · exact Or.inr ⟨h, by simpa using ha⟩

theorem markerDependents_fold_mem (m : Metadata) :
    ∀ (ids : List String) (acc : List String) (x : String),
      x ∈ ids.foldl (fun acc id => listUnion acc (all_dependents_of m id)) acc ↔
        x ∈ acc ∨ ∃ id ∈ ids, x ∈ all_dependents_of m id := by
  intro ids
  induction ids with
  | nil => simp
  | cons id ids ih =>
    intro acc x
    rw [List.foldl_cons, ih, listUnion_mem]
    constructor
    · rintro ((h | h) | ⟨id2, h2, h3⟩)
      · exact Or.inl h
      · exact Or.inr ⟨id, List.mem_cons_self id ids, h⟩
      · exact Or.inr ⟨id2, List.mem_cons_of_mem id h2, h3⟩
    · rintro (h | ⟨id2, h2, h3⟩)
      · exact Or.inl (Or.inl h)
      · rcases List.mem_cons.mp h2 with h4 | h4
        · exact Or.inl (Or.inr (h4 ▸ h3))
        · exact Or.inr ⟨id2, h4, h3⟩

theorem markerDependents_mem (m : Metadata) (x : String) :
    x ∈ markerDependents m ↔
      ∃ e ∈ m.packages, e.2.name = "sqlx-macros" ∧ x ∈ all_dependents_of m e.1 := by
  unfold markerDependents
  rw [markerDependents_fold_mem]
  simp only [List.not_mem_nil, false_or]
  unfold markerMatchedIds
  constructor
  · rintro ⟨id, hid, hx⟩
    rcases List.mem_map.mp hid with ⟨e, he, hfst⟩
    rcases List.mem_filter.mp he with ⟨hemem, hname⟩
    exact ⟨e, hemem, by simpa using hname, hfst ▸ hx⟩
  · rintro ⟨e, hemem, hname, hx⟩
    exact ⟨e.1, List.mem_map.mpr ⟨e, List.mem_filter.mpr ⟨hemem, by simpa using hname⟩, rfl⟩, hx⟩

/-- C3: the planner's in-workspace and out-of-workspace dependent sets
are disjoint, and together they cover exactly the union of
`all_dependents_of` over every package identity whose name equals the
marker package name `"sqlx-macros"`. -/
theorem c3_plan_partition (m : Metadata) (x : String) :
    (¬ (x ∈ inWorkspaceDependents m ∧ x ∈ outOfWorkspaceDependents m))
    ∧ ((x ∈ inWorkspaceDependents m ∨ x ∈ outOfWorkspaceDependents m) ↔
        ∃ e ∈ m.packages, e.2.name = "sqlx-macros" ∧ x ∈ all_dependents_of m e.1) := by
  constructor
  · rintro ⟨hin, hout⟩
    have h1 := (List.mem_filter.mp hin).2
    have h2 := (List.mem_filter.mp hout).2
    simp at h1 h2
    exact h2 h1
  · rw [← markerDependents_mem]
    constructor
    · rintro (h | h)
      · exact (List.mem_filter.mp h).1
      · exact (List.mem_filter.mp h).1
    · intro h
      by_cases hws : x ∈ m.workspace_members
      · exact Or.inl (List.mem_filter.mpr ⟨h, by simpa using hws⟩)
      · exact Or.inr (List.mem_filter.mpr ⟨h, by simpa using hws⟩)

/-- C3 witness: the partition and coverage at a concrete graph. -/
theorem c3_plan_partition_witness :
    (¬ (("s" : String) ∈ inWorkspaceDependents fixtureMarker
      ∧ ("s" : String) ∈ outOfWorkspaceDependents fixtureMarker))
    ∧ ((("s" : String) ∈ inWorkspaceDependents fixtureMarker
        ∨ ("s" : String) ∈ outOfWorkspaceDependents fixtureMarker) ↔
        ∃ e ∈ fixtureMarker.packages,
          e.2.name = "sqlx-macros"
          ∧ ("s" : String) ∈ all_dependents_of fixtureMarker e.1) :=
  c3_plan_partition fixtureMarker ("s")

/-- C8: when no package in the graph is named `"sqlx-macros"`, the
planner succeeds with the empty action (no packages to clean, no paths to
touch) rather than erroring. -/
theorem c8_no_marker_empty_action (m : Metadata)
    (h : ∀ e ∈ m.packages, e.2.name ≠ "sqlx-macros") :
    minimal_project_recompile_action m = .ok { clean_packages := [], touch_paths := [] } := by
  have hids : markerMatchedIds m = [] := by
    unfold markerMatchedIds
    rw [List.map_eq_nil_iff, List.filter_eq_nil_iff]
    intro e he
    simpa using h e he
  have hdeps : markerDependents m = [] := by
    unfold markerDependents
    rw [hids]
    rfl
  simp [minimal_project_recompile_action, inWorkspaceDependents,
    outOfWorkspaceDependents, hdeps]

/-- C8 witness: a concrete graph with no marker package yields the empty
action. -/
theorem c8_no_marker_empty_action_witness :
    (∀ e ∈ fixtureNoMarker.packages, e.2.name ≠ "sqlx-macros")
    ∧ minimal_project_recompile_action fixtureNoMarker
      = .ok { clean_packages := [], touch_paths := [] } :=
  ⟨by decide, c8_no_marker_empty_action fixtureNoMarker (by decide)⟩

/-! ## The builder performs no referential validation -/

/-- C9 (counterexample to the claim as stated): metadata whose `resolve`
section names identities absent from the package list is accepted by the
builder without error, producing a graph whose `reverse_deps` has a key
(`"c"`) and a member (`"b"`) that are not keys of the package mapping. -/
theorem c9_no_validation_counterexample :
    Metadata.from_cargo_metadata fixtureBadCargo = .ok fixtureBadGraph
    ∧ (("c", ["b"]) : String × List String) ∈ fixtureBadGraph.reverse_deps
    ∧ List.lookup ("c") fixtureBadGraph.packages = none
    ∧ List.lookup ("b") fixtureBadGraph.packages = none :=
  ⟨rfl, by decide, rfl, rfl⟩

/-- C9 (amended): the builder does not enforce the invariant — any parsed
metadata containing a `resolve` section is accepted, whatever identities
that section mentions — and the later planning operations never error on
a violating graph: they silently skip identities without a package entry,
so every emitted touch path and clean name originates from an identity
present in the package mapping. -/
theorem c9_no_validation_amended :
    (∀ (c : CargoMetadata) (r : MetadataResolve), c.resolve = some r →
      ∃ g : Metadata, Metadata.from_cargo_metadata c = .ok g)
    ∧ (∀ m : Metadata, ∃ a : ProjectRecompileAction,
        minimal_project_recompile_action m = .ok a)
    ∧ (∀ (m : Metadata) (a : ProjectRecompileAction) (p : String),
        minimal_project_recompile_action m = .ok a → p ∈ a.touch_paths →
        ∃ (id : String) (pkg : Package),
          List.lookup id m.packages = some pkg ∧ p ∈ pkg.src_paths)
    ∧ (∀ (m : Metadata) (a : ProjectRecompileAction) (n : String),
        minimal_project_recompile_action m = .ok a → n ∈ a.clean_packages →
        ∃ (id : String) (pkg : Package),
          List.lookup id m.packages = some pkg ∧ n = pkg.name) := by
  refine ⟨?_, ?_, ?_, ?_⟩
  · intro c r h
    unfold Metadata.from_cargo_metadata
    rw [h]
    exact ⟨_, rfl⟩
  · intro m
    exact ⟨_, rfl⟩
  · intro m a p ha hp
    simp only [minimal_project_recompile_action, Except.ok.injEq] at ha
    rw [← ha] at hp
    simp only [List.mem_flatten] at hp
    rcases hp with ⟨l, hl, hpl⟩
    rcases List.mem_filterMap.mp hl with ⟨id, _, hmap⟩
    rcases Option.map_eq_some'.mp hmap with ⟨pkg, hlook, hsp⟩
    exact ⟨id, pkg, hlook, hsp ▸ hpl⟩
  · intro m a n ha hn
    simp only [minimal_project_recompile_action, Except.ok.injEq] at ha
    rw [← ha] at hn
    rcases List.mem_filterMap.mp hn with ⟨id, _, hmap⟩
    rcases Option.map_eq_some'.mp hmap with ⟨pkg, hlook, hname⟩
    exact ⟨id, pkg, hlook, hname.symm⟩

/-- C9 witness: the acceptance conjunct at the concrete violating
metadata, and the never-errors conjunct at a graph whose only dependent
has no package entry. -/
theorem c9_no_validation_amended_witness :
    fixtureBadCargo.resolve = some { nodes := [{ id := "b", deps := ["c"] }] }
    ∧ (∃ g : Metadata, Metadata.from_cargo_metadata fixtureBadCargo = .ok g)
    ∧ (∃ a : ProjectRecompileAction,
        minimal_project_recompile_action fixtureGhost = .ok a) :=
  ⟨rfl,
   c9_no_validation_amended.1 fixtureBadCargo
     { nodes := [{ id := "b", deps := ["c"] }] } rfl,
   c9_no_validation_amended.2.1 fixtureGhost⟩

/-! ## The retry law -/

theorem sumOver_succ (interval : Nat → Nat) (a n : Nat) :
    sumOver interval a (n + 1) = interval a + sumOver interval (a + 1) n := rfl

theorem sumOver_ge (interval : Nat → Nat) (hpos : ∀ n, 0 < interval n) :
    ∀ (n a : Nat), n ≤ sumOver interval a n := by
  intro n
  induction n with
  | zero => intro a; exact Nat.zero_le _
  | succ n ih =>
    intro a
    rw [sumOver_succ]
    have h1 := hpos a
    have h2 := ih (a + 1)
    omega

/-- A constantly failing attempt function always surfaces its error,
whatever the fuel, attempt index, or elapsed time. -/
theorem retryLoop_const_error {α : Type} (e : SqlxError) (interval : Nat → Nat)
    (maxElapsed : Nat) :
    ∀ (fuel attempt elapsed : Nat),
      (retryLoop (fun _ => (.error e : Except SqlxError α)) interval maxElapsed
        fuel attempt elapsed).1 = .error e := by
  intro fuel
  induction fuel with
  | zero =>
    intro a el
    unfold retryLoop
    cases hcl : classifyConnectError e <;> simp [hcl]
  | succ fuel ih =>
    intro a el
    unfold retryLoop
    cases hcl : classifyConnectError e <;> simp [hcl]
    by_cases hb : maxElapsed < el + interval a
    · simp [hb]
    · simp [hb, ih (a + 1) (el + interval a)]

/-- Stepping over `N` consecutive transient failures that fit in the
elapsed-time budget advances the loop to attempt `N`. -/
theorem retryLoop_skip_transients {α : Type} (f : Nat → Except SqlxError α)
    (interval : Nat → Nat) (maxElapsed : Nat) :
    ∀ (N fuel attempt elapsed : Nat),
      (∀ k, k < N → ∃ e, f (attempt + k) = .error e ∧ classifyConnectError e = .transient) →
      elapsed + sumOver interval attempt N ≤ maxElapsed →
      N ≤ fuel →
      retryLoop f interval maxElapsed fuel attempt elapsed
        = retryLoop f interval maxElapsed (fuel - N) (attempt + N)
            (elapsed + sumOver interval attempt N) := by
  intro N
  induction N with
  | zero => intro fuel a el _ _ _; simp [sumOver]
  | succ N ih =>
    intro fuel a el htr hbud hfuel
    obtain ⟨fuel', rfl⟩ : ∃ fuel', fuel = fuel' + 1 := ⟨fuel - 1, by omega⟩
    obtain ⟨e0, he0, hcl0⟩ := htr 0 (Nat.succ_pos N)
    simp only [Nat.add_zero] at he0
    have hbud1 : ¬ maxElapsed < el + interval a := by
      rw [sumOver_succ] at hbud
      omega
    have h1 : retryLoop f interval maxElapsed (fuel' + 1) a el
        = retryLoop f interval maxElapsed fuel' (a + 1) (el + interval a) := by
      conv_lhs => rw [retryLoop]
      rw [he0]
      simp [hcl0, hbud1]
    have htr2 : ∀ k, k < N →
        ∃ e, f (a + 1 + k) = .error e ∧ classifyConnectError e = .transient := by
      intro k hk
      have h := htr (k + 1) (by omega)
      rwa [show a + (k + 1) = a + 1 + k by omega] at h
    have hbud2 : el + interval a + sumOver interval (a + 1) N ≤ maxElapsed := by
      rw [sumOver_succ] at hbud
      omega
    have h2 := ih fuel' (a + 1) (el + interval a) htr2 hbud2 (by omega)
    rw [h1, h2, sumOver_succ]
    congr 1
    · omega
    · omega
    · omega

/-- C6: the retry law. (A) an error is classified transient exactly when
it is an I/O error of kind connection-refused, connection-reset or
connection-aborted; (B) a permanent failure on the first attempt is
surfaced immediately with zero retries, whatever the remaining budget;
(C) an always-transient-failing attempt function surfaces the transient
error once the budget is exhausted; (D) a function failing transiently
for the first `N` attempts and then succeeding returns success after
exactly `N` retries when the `N` backoff delays fit within `maxElapsed`;
(E) a permanent failure arising after `N` transient failures is likewise
surfaced immediately at attempt `N`. The backoff intervals are abstract
positive durations (the external crate computes them exponentially with
jitter). -/
theorem c6_retry_law (α : Type) (interval : Nat → Nat) (maxElapsed : Nat) :
    (∀ e : SqlxError, classifyConnectError e = .transient ↔
      (e = .io .connectionRefused ∨ e = .io .connectionReset ∨ e = .io .connectionAborted))
    ∧ (∀ (f : Nat → Except SqlxError α) (e : SqlxError),
        f 0 = .error e → classifyConnectError e = .permanent →
        retry_connect_errors f interval maxElapsed = (.error e, 0))
    ∧ (∀ e : SqlxError, classifyConnectError e = .transient →
        (retry_connect_errors (fun _ => (.error e : Except SqlxError α))
          interval maxElapsed).1 = .error e)
    ∧ (∀ (f : Nat → Except SqlxError α) (N : Nat) (t : α),
        (∀ n, 0 < interval n) →
        (∀ k, k < N → ∃ e, f k = .error e ∧ classifyConnectError e = .transient) →
        f N = .ok t →
        sumOver interval 0 N ≤ maxElapsed →
        retry_connect_errors f interval maxElapsed = (.ok t, N))
    ∧ (∀ (f : Nat → Except SqlxError α) (N : Nat) (e : SqlxError),
        (∀ n, 0 < interval n) →
        (∀ k, k < N → ∃ e2, f k = .error e2 ∧ classifyConnectError e2 = .transient) →
        f N = .error e → classifyConnectError e = .permanent →
        sumOver interval 0 N ≤ maxElapsed →
        retry_connect_errors f interval maxElapsed = (.error e, N)) := by
  refine ⟨?_, ?_, ?_, ?_, ?_⟩
  · intro e
    cases e with
    | io kind => cases kind <;> simp [classifyConnectError]
    | otherError msg => simp [classifyConnectError]
  · intro f e hf0 hcl
    unfold retry_connect_errors retryLoop
    rw [hf0]
    simp [hcl]
  · intro e _
    exact retryLoop_const_error e interval maxElapsed (maxElapsed + 1) 0 0
  · intro f N t hpos htr hfN hbud
    have hN : N ≤ maxElapsed + 1 :=
      le_trans (le_trans (sumOver_ge interval hpos N 0) hbud) (Nat.le_succ _)
    have hskip := retryLoop_skip_transients f interval maxElapsed N
      (maxElapsed + 1) 0 0 (by simpa using htr) (by simpa using hbud) hN
    unfold retry_connect_errors
    rw [hskip]
    unfold retryLoop
    rw [show (0 + N : Nat) = N by omega, hfN]
  · intro f N e hpos htr hfN hcl hbud
    have hN : N ≤ maxElapsed + 1 :=
      le_trans (le_trans (sumOver_ge interval hpos N 0) hbud) (Nat.le_succ _)
    have hskip := retryLoop_skip_transients f interval maxElapsed N
      (maxElapsed + 1) 0 0 (by simpa using htr) (by simpa using hbud) hN
    unfold retry_connect_errors
    rw [hskip]
    unfold retryLoop
    rw [show (0 + N : Nat) = N by omega, hfN]
    simp [hcl]

/-- C6 witness: the retry law at concrete attempt functions — a
permanent failure returns at once with zero retries; a constant transient
failure is surfaced; two transient failures followed by success return
success after two retries within a budget of 3. -/
theorem c6_retry_law_witness :
    (classifyConnectError (.io .connectionRefused) = .transient
      ↔ ((.io .connectionRefused : SqlxError) = .io .connectionRefused
         ∨ (.io .connectionRefused : SqlxError) = .io .connectionReset
         ∨ (.io .connectionRefused : SqlxError) = .io .connectionAborted))
    ∧ retry_connect_errors (fun _ => (.error (.otherError "boom") : Except SqlxError Nat))
        (fun _ => 1) 3 = (.error (.otherError "boom"), 0)
    ∧ (retry_connect_errors (fun _ => (.error (.io .connectionReset) : Except SqlxError Nat))
        (fun _ => 1) 3).1 = .error (.io .connectionReset)
    ∧ retry_connect_errors
        (fun k => if k < 2 then (.error (.io .connectionReset) : Except SqlxError Nat) else .ok 7)
        (fun _ => 1) 3 = (.ok 7, 2) :=
  ⟨(c6_retry_law Nat (fun _ => 1) 3).1 (.io .connectionRefused),
   (c6_retry_law Nat (fun _ => 1) 3).2.1 (fun _ => .error (.otherError "boom"))
     (.otherError "boom") rfl rfl,
   (c6_retry_law Nat (fun _ => 1) 3).2.2.1 (.io .connectionReset) rfl,
   (c6_retry_law Nat (fun _ => 1) 3).2.2.2.1
     (fun k => if k < 2 then .error (.io .connectionReset) else .ok 7) 2 7
     (fun _ => Nat.one_pos)
     (fun k hk => ⟨.io .connectionReset, by simp [hk], rfl⟩)
     (by simp)
     (by decide)⟩

/-! ## Basic facts about the hash -/

theorem hashToBytes_length (s : Hash8) : (hashToBytes s).length = 32 := rfl

theorem sha256_length (msg : List Nat) : (sha256 msg).length = 32 :=
  hashToBytes_length _

theorem hexEncode_data_length (bs : List Nat) :
    (bs.foldr (fun b acc => hexDigitChar (b / 16) :: hexDigitChar (b % 16) :: acc)
      ([] : List Char)).length = 2 * bs.length := by
  induction bs with
  | nil => rfl
  | cons b bs ih => simp [List.foldr_cons, ih]; ring

theorem hexEncode_length (bs : List Nat) : (hexEncode bs).length = 2 * bs.length :=
  hexEncode_data_length bs

theorem hash_string_length (s : String) : (hash_string s).length = 64 := by
  show (hexEncode (sha256 (utf8Bytes s))).length = 64
  rw [hexEncode_length, sha256_length]

theorem hash_string_ne_empty (s : String) : hash_string s ≠ "" := by
  intro h
  have h64 := hash_string_length s
  rw [h] at h64
  simp at h64

theorem dbKindOfName_name (k : DbKind) : dbKindOfName k.name = some k := by
  cases k <;> rfl

/-! ## The load path after a save -/

/-- After `save_in`, the final path holds the serialized descriptor. -/
theorem save_in_reads_back (fs : Fs) (d : QueryData) (dir target span : String) :
    (save_in fs d dir target span).1 (save_in fs d dir target span).2
      = some (serializeQueryData d) := by
  simp [save_in, setFile]

/-- Round-trip core: saving a descriptor built by `from_describe` and
loading it back at the final path with the same query text succeeds, and
the loaded descriptor keeps the database kind, query text and describe
payload but has the empty string as `hash` (the `serde(skip)` default),
and the loaded descriptor is inserted into the cache. -/
theorem load_after_save (k : DbKind) (q desc dir target span : String)
    (fs : Fs) (cache : Cache)
    (hmiss : List.lookup (save_in fs (QueryData.from_describe k q desc) dir target span).2 cache = none) :
    load_query_from_data_file
        (save_in fs (QueryData.from_describe k q desc) dir target span).1
        cache
        (save_in fs (QueryData.from_describe k q desc) dir target span).2
        q
      = (.ok { dbKind := k, query := q, hash := "", describe := desc },
         cache ++ [((save_in fs (QueryData.from_describe k q desc) dir target span).2,
                    { dbKind := k, query := q, hash := "", describe := desc })]) := by
  have hread := save_in_reads_back fs (QueryData.from_describe k q desc) dir target span
  unfold load_query_from_data_file
  rw [hmiss, hread]
  simp [serializeQueryData, parseRawQueryData, QueryData.from_describe, dbKindOfName_name]

/-! ## Claim theorems for the offline cache -/

/-- C1 (counterexample to the claim as stated): saving the concrete
descriptor `from_describe postgres "SELECT 1" "[]"` and loading the file
at its final content-hash path with the same query text returns a
descriptor whose `hash` is the empty string, which differs from the saved
descriptor's hash (a 64-character SHA-256 hex digest). The round-trip does
NOT preserve the hash, because `RawQueryData.hash` is marked
`#[serde(skip)]` and deserializes to the `String` default. -/
theorem c1_roundtrip_counterexample :
    (load_query_from_data_file
        (save_in (fun _ => none) (QueryData.from_describe DbKind.postgres ("SELECT 1") ("[]")) ("d") ("t") ("sp")).1
        []
        (save_in (fun _ => none) (QueryData.from_describe DbKind.postgres ("SELECT 1") ("[]")) ("d") ("t") ("sp")).2
        ("SELECT 1")).1
      = .ok { dbKind := DbKind.postgres, query := "SELECT 1", hash := "", describe := "[]" }
    ∧ ("" : String) ≠ (QueryData.from_describe DbKind.postgres ("SELECT 1") ("[]")).hash := by
  constructor
  · rw [load_after_save DbKind.postgres ("SELECT 1") ("[]") ("d") ("t") ("sp") (fun _ => none) [] rfl]
  · exact fun h => hash_string_ne_empty ("SELECT 1") h.symm

/-- C1 (amended): for every descriptor `D` built by `from_describe`,
saving `D` with `save_in` and loading the file at its final content-hash
path with `D`'s query text succeeds and returns a descriptor with the same
database-kind tag, the same query text and the same describe payload;
the `hash` field, however, comes back as the empty string (it is skipped
by deserialization), not as `D`'s hash. -/
theorem c1_roundtrip_amended (k : DbKind) (q desc dir target span : String)
    (fs : Fs) (cache : Cache)
    (hmiss : List.lookup (save_in fs (QueryData.from_describe k q desc) dir target span).2 cache = none) :
    (load_query_from_data_file
        (save_in fs (QueryData.from_describe k q desc) dir target span).1
        cache
        (save_in fs (QueryData.from_describe k q desc) dir target span).2
        q).1
      = .ok { dbKind := k, query := q, hash := "", describe := desc } := by
  rw [load_after_save k q desc dir target span fs cache hmiss]

/-- C1 witness: the amended round-trip at a concrete descriptor. -/
theorem c1_roundtrip_amended_witness :
    List.lookup (save_in (fun _ => none) (QueryData.from_describe DbKind.mysql ("SELECT 2") ("x")) ("dir") ("tg") ("s1")).2 ([] : Cache) = none
    ∧ (load_query_from_data_file
        (save_in (fun _ => none) (QueryData.from_describe DbKind.mysql ("SELECT 2") ("x")) ("dir") ("tg") ("s1")).1
        []
        (save_in (fun _ => none) (QueryData.from_describe DbKind.mysql ("SELECT 2") ("x")) ("dir") ("tg") ("s1")).2
        ("SELECT 2")).1
      = .ok { dbKind := DbKind.mysql, query := "SELECT 2", hash := "", describe := "x" } :=
  ⟨rfl, c1_roundtrip_amended DbKind.mysql ("SELECT 2") ("x") ("dir") ("tg") ("s1") (fun _ => none) [] rfl⟩

/-- C5: every descriptor built by `from_describe` (the only descriptor
constructor) and written by `save_in` lands at
`<dir>/query-<hex(SHA-256(query))>.json`; consequently two descriptors
with identical query text are written to the same file, whatever their
kind, describe payload, or call site. -/
theorem c5_filename_is_content_hash (k : DbKind) (q desc dir target span : String)
    (fs : Fs) :
    (save_in fs (QueryData.from_describe k q desc) dir target span).2
      = dir ++ "/query-" ++ hexEncode (sha256 (utf8Bytes q)) ++ ".json"
    ∧ ∀ (k2 : DbKind) (desc2 target2 span2 : String) (fs2 : Fs),
        (save_in fs2 (QueryData.from_describe k2 q desc2) dir target2 span2).2
          = (save_in fs (QueryData.from_describe k q desc) dir target span).2 :=
  ⟨rfl, fun _ _ _ _ _ => rfl⟩

/-- C4: whenever the descriptor stored at a path has a query text
different from the expected one, the load fails with the collision error
and returns no descriptor — both on a cache hit (the check runs even
then) and on a disk read. -/
theorem c4_collision_law (fs : Fs) (cache : Cache) (path query : String) :
    (∀ cached : QueryData, List.lookup path cache = some cached →
      query ≠ cached.query →
      load_query_from_data_file fs cache path query = (.error .collision, cache))
    ∧ (∀ r : FileRecord, List.lookup path cache = none →
        fs path = some (.valid r) → query ≠ r.query →
        load_query_from_data_file fs cache path query = (.error .collision, cache)) := by
  constructor
  · intro cached hc hq
    unfold load_query_from_data_file
    rw [hc]
    simp [hq]
  · intro r hc hf hq
    unfold load_query_from_data_file
    rw [hc, hf]
    simp [parseRawQueryData, hq]

/-- C4 witness: a cache hit whose stored query differs from the expected
one fails with the collision error. -/
theorem c4_collision_law_witness :
    List.lookup ("p.json") [(("p.json" : String), QueryData.from_describe DbKind.sqlite ("SELECT 3") ("y"))]
      = some (QueryData.from_describe DbKind.sqlite ("SELECT 3") ("y"))
    ∧ ("SELECT 4" : String) ≠ (QueryData.from_describe DbKind.sqlite ("SELECT 3") ("y")).query
    ∧ load_query_from_data_file (fun _ => none)
        [(("p.json" : String), QueryData.from_describe DbKind.sqlite ("SELECT 3") ("y"))]
        ("p.json") ("SELECT 4")
      = (.error .collision, [(("p.json" : String), QueryData.from_describe DbKind.sqlite ("SELECT 3") ("y"))]) :=
  ⟨rfl, by decide,
   (c4_collision_law (fun _ => none)
     [(("p.json" : String), QueryData.from_describe DbKind.sqlite ("SELECT 3") ("y"))]
     ("p.json") ("SELECT 4")).1 _ rfl (by decide)⟩

/-- C7: a stored descriptor whose database-kind tag is not one of the
kinds this build supports makes the load fail with the typed
unknown-database-kind error value (an ordinary returned error, not an
abort); and every representable descriptor tag is supported
(`dbKindOfName` inverts `DbKind.name`), so no loaded or cached descriptor
can carry an unsupported tag — in particular the downcast operations are
never invoked on one. -/
theorem c7_unknown_database_kind (fs : Fs) (cache : Cache) (path query : String) :
    (∀ r : FileRecord, List.lookup path cache = none →
      fs path = some (.valid r) → query = r.query →
      dbKindOfName r.db_name = none →
      load_query_from_data_file fs cache path query
        = (.error (.unknownDatabaseKind r.db_name), cache))
    ∧ ∀ k : DbKind, dbKindOfName k.name = some k := by
  constructor
  · intro r hc hf hq hd
    unfold load_query_from_data_file
    rw [hc, hf]
    simp [parseRawQueryData, hq, hd]
  · exact dbKindOfName_name

/-- C7 witness: loading a file recorded for an unknown database name
fails with the typed error carrying that name. -/
theorem c7_unknown_database_kind_witness :
    load_query_from_data_file
        (fun p => if p = "u.json" then
          some (.valid { db_name := "Oracle", query := "SELECT 5", hash := "h", describe := "z" })
          else none)
        [] ("u.json") ("SELECT 5")
      = (.error (.unknownDatabaseKind ("Oracle")), [])
    ∧ dbKindOfName (DbKind.mssql.name) = some DbKind.mssql :=
  ⟨(c7_unknown_database_kind
      (fun p => if p = "u.json" then
        some (.valid { db_name := "Oracle", query := "SELECT 5", hash := "h", describe := "z" })
        else none)
      [] ("u.json") ("SELECT 5")).1
      { db_name := "Oracle", query := "SELECT 5", hash := "h", describe := "z" }
      rfl (by decide) rfl rfl,
   (c7_unknown_database_kind (fun _ => none) [] ("") ("")).2 DbKind.mssql⟩

/-- C10: whenever `load_query_from_data_file` returns an error — for any
reason — the in-process cache is returned unchanged; the entry for the
path is inserted only on full success. -/
theorem c10_error_leaves_cache_unchanged (fs : Fs) (cache : Cache)
    (path query : String) (e : LoadError)
    (herr : (load_query_from_data_file fs cache path query).1 = .error e) :
    (load_query_from_data_file fs cache path query).2 = cache := by
  unfold load_query_from_data_file at herr ⊢
  cases hc : List.lookup path cache with
  | some cached =>
    by_cases hq : query ≠ cached.query <;> simp [hc, hq]
  | none =>
    cases hf : fs path with
    | none => simp [hc, hf]
    | some contents =>
      cases hp : parseRawQueryData contents with
      | none => simp [hc, hf, hp]
      | some raw =>
        by_cases hq : query ≠ raw.query
        · simp [hc, hf, hp, hq]
        · have hq2 : query = raw.query := not_not.mp hq
          cases hd : dbKindOfName raw.db_name with
          | none => simp [hc, hf, hp, hq2, hd]
          | some k =>
            rw [hc] at herr
            simp [hf, hp, hq2, hd] at herr

/-- C10 witness: a collision error on a cache hit leaves the cache
unchanged. -/
theorem c10_error_leaves_cache_unchanged_witness :
    (load_query_from_data_file (fun _ => none)
        [(("w.json" : String), QueryData.from_describe DbKind.postgres ("SELECT 6") ("w"))]
        ("w.json") ("SELECT 7")).1 = .error .collision
    ∧ (load_query_from_data_file (fun _ => none)
        [(("w.json" : String), QueryData.from_describe DbKind.postgres ("SELECT 6") ("w"))]
        ("w.json") ("SELECT 7")).2
      = [(("w.json" : String), QueryData.from_describe DbKind.postgres ("SELECT 6") ("w"))] := by
  constructor
  · rfl
  · exact c10_error_leaves_cache_unchanged (fun _ => none)
      [(("w.json" : String), QueryData.from_describe DbKind.postgres ("SELECT 6") ("w"))]
      ("w.json") ("SELECT 7") .collision rfl

end Sqlx
